import Mathlib

/-!
Shallow embedding of the gameplay-logic module
(3D_Game_Project/Assets/Scripts/Advanced/AdvancedSystems.cpp):
enemy AI decision tree, combat math, skill cooldown/mana ledger and
mission bookkeeping.  The C++ float arithmetic is embedded as exact
rational arithmetic (ℚ); decimal literals such as 0.2 denote the exact
rationals the source writes.  The hidden random draw of CalculateHit is
passed as an explicit parameter.  The out-of-bounds matrix access in
GetElementalMultiplier is totalised with Option: a lookup outside the
3×3 table returns none.
-/

namespace AdvancedSystems

/-- The six behaviour states of the enemy AI decision tree. -/
inductive AIState : Type
  | IDLE | PATROL | CHASE | ATTACK | STUNNED | DEAD
deriving DecidableEq, Repr

/-- State of class EnemyAIBehavior: its four private float fields. -/
structure EnemyAIBehavior : Type where
  detectionRange : ℚ
  attackRange : ℚ
  currentHealth : ℚ
  maxHealth : ℚ
deriving DecidableEq, Repr

namespace EnemyAIBehavior

/-- The constructor EnemyAIBehavior(float maxHp): full health, fixed
detection range 15.0f and attack range 3.0f. -/
def construct (maxHp : ℚ) : EnemyAIBehavior :=
  { maxHealth := maxHp
    currentHealth := maxHp
    detectionRange := 15
    attackRange := 3 }

/-- EnemyAIBehavior::DecideAction, the health-gated decision tree.
The playerHealth parameter is taken (and ignored) exactly as in the
source. -/
def DecideAction (e : EnemyAIBehavior) (distanceToPlayer : ℚ)
    (playerHealth : ℚ) (hasLineOfSight : Bool) : AIState :=
  if e.currentHealth ≤ 0 then .DEAD
  else if e.currentHealth < e.maxHealth * 0.2 then .STUNNED
  else if distanceToPlayer < e.attackRange ∧ hasLineOfSight = true then .ATTACK
  else if distanceToPlayer < e.detectionRange ∧ hasLineOfSight = true then .CHASE
  else .PATROL

/-- EnemyAIBehavior::CalculateDamage (uses no object state). -/
def CalculateDamage (baseAttackPower targetDefense : ℚ)
    (isCritical : Bool) : ℚ :=
  let damage := baseAttackPower * (1 - targetDefense * 0.01)
  let damage := if isCritical then damage * 1.5 else damage
  max 1 damage

/-- EnemyAIBehavior::TakeDamage. -/
def TakeDamage (e : EnemyAIBehavior) (damageAmount : ℚ) : EnemyAIBehavior :=
  { e with currentHealth := max 0 (e.currentHealth - damageAmount) }

/-- EnemyAIBehavior::Heal. -/
def Heal (e : EnemyAIBehavior) (healAmount : ℚ) : EnemyAIBehavior :=
  { e with currentHealth := min e.maxHealth (e.currentHealth + healAmount) }

/-- EnemyAIBehavior::GetHealthPercent. -/
def GetHealthPercent (e : EnemyAIBehavior) : ℚ :=
  e.currentHealth / e.maxHealth

/-- The states an EnemyAIBehavior instance can reach: constructed by the
class constructor, then mutated only through TakeDamage and Heal (the
remaining public member functions assign to no field). -/
inductive Reachable : EnemyAIBehavior → Prop
  | construct (maxHp : ℚ) : Reachable (construct maxHp)
  | takeDamage {e : EnemyAIBehavior} (a : ℚ) :
      Reachable e → Reachable (e.TakeDamage a)
  | heal {e : EnemyAIBehavior} (a : ℚ) :
      Reachable e → Reachable (e.Heal a)

end EnemyAIBehavior

namespace CombatSystem

/-- CombatSystem::CalculateHit computes the clamped hit chance from this
expression: max(0.1f, min(0.95f, (attackAccuracy - targetEvasion) / 100.0f)). -/
def hitChance (attackAccuracy targetEvasion : ℚ) : ℚ :=
  max 0.1 (min 0.95 ((attackAccuracy - targetEvasion) / 100))

/-- CombatSystem::CalculateHit with the random draw
((rand() % 100) / 100.0f) passed in as the explicit parameter randDraw. -/
def CalculateHit (attackAccuracy targetEvasion randDraw : ℚ) : Bool :=
  decide (randDraw < hitChance attackAccuracy targetEvasion)

/-- CombatSystem::CalculateComboMultiplier. -/
def CalculateComboMultiplier (comboCount : ℤ) : ℚ :=
  1 + (comboCount : ℚ) * 0.1

/-- enum Element { FIRE = 0, ICE = 1, LIGHTNING = 2, NULL_ELEMENT = 3 }. -/
inductive Element : Type
  | FIRE | ICE | LIGHTNING | NULL_ELEMENT
deriving DecidableEq, Repr

/-- The numeric value of each enumerator, used as a matrix index. -/
def Element.toIndex : Element → Nat
  | .FIRE => 0
  | .ICE => 1
  | .LIGHTNING => 2
  | .NULL_ELEMENT => 3

/-- The local 3×3 advantage matrix of GetElementalMultiplier, row by row
(Fire, Ice, Lightning). -/
def elementalMatrix : List (List ℚ) :=
  [[1, 1.5, 0.5],
   [0.5, 1, 1.5],
   [1.5, 0.5, 1]]

/-- CombatSystem::GetElementalMultiplier, totalised: the C++ code indexes
matrix[attackElement][targetElement] with no bounds check, so a lookup
outside the 3×3 table (target NULL_ELEMENT with a non-null attacker)
returns none here instead of reading out of bounds. -/
def GetElementalMultiplier (attackElement targetElement : Element) : Option ℚ :=
  if attackElement = .NULL_ELEMENT then some 1
  else
    (elementalMatrix.get? attackElement.toIndex).bind
      (fun row => row.get? targetElement.toIndex)

end CombatSystem

/-- struct Skill of class SkillSystem. -/
structure Skill : Type where
  skillId : ℤ
  cooldown : ℚ
  cooldownRemaining : ℚ
  manaCost : ℚ
  damage : ℚ
  isActive : Bool
deriving DecidableEq, Repr

/-- State of class SkillSystem: the skill ledger and the mana pool. -/
structure SkillSystem : Type where
  skills : List Skill
  currentMana : ℚ
  maxMana : ℚ
deriving DecidableEq, Repr

namespace SkillSystem

/-- The constructor SkillSystem(): mana 100 of 100, no skills. -/
def construct : SkillSystem :=
  { skills := [], currentMana := 100, maxMana := 100 }

/-- The loop body of SkillSystem::CanUseSkill: return the usability test
of the first skill whose id matches; fall through to false after the
loop. -/
def CanUseSkillAux (currentMana : ℚ) (skillId : ℤ) : List Skill → Bool
  | [] => false
  | sk :: rest =>
    if sk.skillId = skillId then
      decide (sk.cooldownRemaining ≤ 0 ∧ currentMana ≥ sk.manaCost)
    else
      CanUseSkillAux currentMana skillId rest

/-- SkillSystem::CanUseSkill. -/
def CanUseSkill (s : SkillSystem) (skillId : ℤ) : Bool :=
  CanUseSkillAux s.currentMana skillId s.skills

/-- The loop of SkillSystem::UseSkill.  The C++ loop re-evaluates
CanUseSkill(skillId) at each id match, but the object is unmodified
until the loop breaks, so every such call returns the value computed on
entry; that value is the canUse parameter here.  Returns the updated
ledger and mana. -/
def UseSkillGo (skillId : ℤ) (canUse : Bool) (currentMana : ℚ) :
    List Skill → List Skill × ℚ
  | [] => ([], currentMana)
  | sk :: rest =>
    if sk.skillId = skillId ∧ canUse = true then
      ({ sk with cooldownRemaining := sk.cooldown } :: rest,
        currentMana - sk.manaCost)
    else
      let r := UseSkillGo skillId canUse currentMana rest
      (sk :: r.1, r.2)

/-- SkillSystem::UseSkill. -/
def UseSkill (s : SkillSystem) (skillId : ℤ) : SkillSystem :=
  let r := UseSkillGo skillId (s.CanUseSkill skillId) s.currentMana s.skills
  { s with skills := r.1, currentMana := r.2 }

/-- The per-skill update of SkillSystem::UpdateCooldowns. -/
def tickCooldown (deltaTime : ℚ) (sk : Skill) : Skill :=
  { sk with cooldownRemaining := max 0 (sk.cooldownRemaining - deltaTime) }

/-- SkillSystem::UpdateCooldowns. -/
def UpdateCooldowns (s : SkillSystem) (deltaTime : ℚ) : SkillSystem :=
  { s with skills := s.skills.map (tickCooldown deltaTime) }

/-- SkillSystem::RegenerateMana. -/
def RegenerateMana (s : SkillSystem) (regenRate deltaTime : ℚ) : SkillSystem :=
  { s with currentMana := min s.maxMana (s.currentMana + regenRate * deltaTime) }

/-- Spec-side description of the ledger after a successful use: the first
skill with the given id has its cooldownRemaining reset to its cooldown
duration; every other entry is untouched. -/
def resetCooldownFirst (skillId : ℤ) : List Skill → List Skill
  | [] => []
  | sk :: rest =>
    if sk.skillId = skillId then
      { sk with cooldownRemaining := sk.cooldown } :: rest
    else
      sk :: resetCooldownFirst skillId rest

end SkillSystem

namespace MissionSystem

/-- struct Mission of class MissionSystem. -/
structure Mission : Type where
  missionId : ℤ
  missionName : String
  completionPercentage : ℚ
  targetCount : ℤ
  targetsEliminated : ℤ
  isComplete : Bool
  timeLimit : ℚ
deriving DecidableEq, Repr

/-- MissionSystem::IsMissionComplete. -/
def IsMissionComplete (mission : Mission) : Bool :=
  decide (mission.targetsEliminated ≥ mission.targetCount)

/-- MissionSystem::GetCompletionPercentage. -/
def GetCompletionPercentage (mission : Mission) : ℚ :=
  if mission.targetCount = 0 then 0
  else ((mission.targetsEliminated : ℚ) / (mission.targetCount : ℚ)) * 100

end MissionSystem

end AdvancedSystems

namespace AdvancedSystems

open EnemyAIBehavior CombatSystem SkillSystem MissionSystem

/-- C1: For every enemy state and every environmental input, DecideAction
returns the first matching case of the priority order Dead (health ≤ 0),
Stunned (health < 0.2 × maxHealth), Attack (distance < attackRange and
line of sight), Chase (distance < detectionRange and line of sight),
Patrol; with maxHealth 100, detectionRange 15, attackRange 3, distance 2
and line of sight, health 100 yields ATTACK and health 15 yields STUNNED. -/
theorem decideAction_spec :
    (∀ (e : EnemyAIBehavior) (d ph : ℚ) (los : Bool),
      e.DecideAction d ph los =
        if e.currentHealth ≤ 0 then .DEAD
        else if e.currentHealth < 0.2 * e.maxHealth then .STUNNED
        else if d < e.attackRange ∧ los = true then .ATTACK
        else if d < e.detectionRange ∧ los = true then .CHASE
        else .PATROL)
    ∧ EnemyAIBehavior.DecideAction
        { detectionRange := 15, attackRange := 3,
          currentHealth := 100, maxHealth := 100 } 2 50 true = .ATTACK
    ∧ EnemyAIBehavior.DecideAction
        { detectionRange := 15, attackRange := 3,
          currentHealth := 15, maxHealth := 100 } 2 50 true = .STUNNED := by
  refine ⟨fun e d ph los => ?_, ?_, ?_⟩
  · rw [EnemyAIBehavior.DecideAction, mul_comm e.maxHealth 0.2]
  · norm_num [EnemyAIBehavior.DecideAction]
  · norm_num [EnemyAIBehavior.DecideAction]

/-- C2: GetElementalMultiplier returns 1.0 whenever the attacker element
is NULL_ELEMENT, and on the nine non-null pairs returns exactly the
cyclic advantage table over Fire, Ice, Lightning. -/
theorem elementalMultiplier_table :
    (∀ t, GetElementalMultiplier .NULL_ELEMENT t = some 1)
    ∧ GetElementalMultiplier .FIRE .ICE = some 1.5
    ∧ GetElementalMultiplier .FIRE .LIGHTNING = some 0.5
    ∧ GetElementalMultiplier .FIRE .FIRE = some 1
    ∧ GetElementalMultiplier .ICE .LIGHTNING = some 1.5
    ∧ GetElementalMultiplier .ICE .FIRE = some 0.5
    ∧ GetElementalMultiplier .ICE .ICE = some 1
    ∧ GetElementalMultiplier .LIGHTNING .FIRE = some 1.5
    ∧ GetElementalMultiplier .LIGHTNING .ICE = some 0.5
    ∧ GetElementalMultiplier .LIGHTNING .LIGHTNING = some 1 :=
  ⟨fun t => by cases t <;> rfl, rfl, rfl, rfl, rfl, rfl, rfl, rfl, rfl, rfl⟩

/-- C3: with a non-null attacker element and target NULL_ELEMENT the
3×3 matrix is indexed at column 3, out of bounds: the totalised
GetElementalMultiplier hits its none branch there (reachable, e.g. at
FIRE versus NULL_ELEMENT), and these are exactly the none cases, so the
source function is well defined only when the target element is non-null
whenever the attacker element is. -/
theorem elementalMultiplier_nullTarget_oob :
    GetElementalMultiplier .FIRE .NULL_ELEMENT = none
    ∧ (∀ a t, GetElementalMultiplier a t = none ↔
        (a ≠ Element.NULL_ELEMENT ∧ t = Element.NULL_ELEMENT)) := by
  refine ⟨rfl, fun a t => ?_⟩
  cases a <;> cases t <;>
    simp [GetElementalMultiplier, Element.toIndex, elementalMatrix]

/-- C4: CalculateDamage equals the maximum of 1.0 and
basePower × (1 − 0.01 × targetDefense), the product multiplied by 1.5
when critical; hence the result is at least 1.0 for every input,
including defenses above 100 that make the raw formula non-positive. -/
theorem calculateDamage_spec (b d : ℚ) (c : Bool) :
    EnemyAIBehavior.CalculateDamage b d c
        = max 1 (b * (1 - 0.01 * d) * (if c then 1.5 else 1))
    ∧ 1 ≤ EnemyAIBehavior.CalculateDamage b d c := by
  have h : EnemyAIBehavior.CalculateDamage b d c
      = max 1 (b * (1 - 0.01 * d) * (if c then 1.5 else 1)) := by
    cases c <;> simp [EnemyAIBehavior.CalculateDamage, mul_comm]
  exact ⟨h, h ▸ le_max_left _ _⟩

/-- C7: the hit chance computed inside CalculateHit is the clamp of
(accuracy − evasion) / 100 to the closed interval from 0.10 to 0.95, so
it always lies in that interval; CalculateHit returns true exactly when
the random draw is strictly below this clamped chance. -/
theorem calculateHit_spec (acc ev r : ℚ) :
    (hitChance acc ev =
      if (acc - ev) / 100 < 0.1 then 0.1
      else if 0.95 < (acc - ev) / 100 then 0.95
      else (acc - ev) / 100)
    ∧ 0.1 ≤ hitChance acc ev
    ∧ hitChance acc ev ≤ 0.95
    ∧ (CalculateHit acc ev r = true ↔ r < hitChance acc ev) := by
  refine ⟨?_, le_max_left _ _, ?_, by simp [CalculateHit]⟩
  · rw [hitChance]
    split
    · rename_i h1
      rw [min_eq_right (by linarith : (acc - ev) / 100 ≤ 0.95),
        max_eq_left (le_of_lt h1)]
    · split
      · rename_i h1 h2
        rw [min_eq_left (le_of_lt h2), max_eq_right (by norm_num : (0.1:ℚ) ≤ 0.95)]
      · rename_i h1 h2
        rw [min_eq_right (not_lt.mp h2), max_eq_right (not_lt.mp h1)]
  · exact max_le (by norm_num) (min_le_left _ _)

/-- C9: GetCompletionPercentage returns 0 when targetCount is 0 and the
ratio times 100 otherwise; IsMissionComplete returns true exactly when
targetsEliminated reaches targetCount; at targetCount 10 and
targetsEliminated 10 the mission is complete at percentage 100. -/
theorem mission_spec (m : Mission) :
    GetCompletionPercentage m =
      (if m.targetCount = 0 then 0
       else ((m.targetsEliminated : ℚ) / (m.targetCount : ℚ)) * 100)
    ∧ (IsMissionComplete m = true ↔ m.targetsEliminated ≥ m.targetCount)
    ∧ IsMissionComplete
        { missionId := 1, missionName := "", completionPercentage := 0,
          targetCount := 10, targetsEliminated := 10,
          isComplete := false, timeLimit := 60 } = true
    ∧ GetCompletionPercentage
        { missionId := 1, missionName := "", completionPercentage := 0,
          targetCount := 10, targetsEliminated := 10,
          isComplete := false, timeLimit := 60 } = 100 := by
  refine ⟨rfl, by simp [IsMissionComplete], rfl, ?_⟩
  norm_num [GetCompletionPercentage]

end AdvancedSystems

namespace AdvancedSystems

open EnemyAIBehavior CombatSystem SkillSystem MissionSystem

/-- The UseSkill loop is the identity when the usability check failed on
entry: the guarded branch is never taken. -/
theorem useSkillGo_of_false (skillId : ℤ) (cm : ℚ) (l : List Skill) :
    UseSkillGo skillId false cm l = (l, cm) := by
  induction l with
  | nil => rfl
  | cons a rest ih => simp [UseSkillGo, ih]

/-- The UseSkill loop, when the usability check succeeded on entry,
resets the cooldown of the first skill whose id matches and deducts that
skill's mana cost. -/
theorem useSkillGo_of_true (skillId : ℤ) (cm : ℚ) (l : List Skill)
    (sk : Skill) (h : l.find? (fun x => decide (x.skillId = skillId)) = some sk) :
    UseSkillGo skillId true cm l = (resetCooldownFirst skillId l, cm - sk.manaCost) := by
  induction l with
  | nil => simp at h
  | cons a rest ih =>
    by_cases ha : a.skillId = skillId
    · rw [List.find?_cons_of_pos _ (by simp [ha])] at h
      injection h with h
      subst h
      simp [UseSkillGo, resetCooldownFirst, ha]
    · rw [List.find?_cons_of_neg _ (by simp [ha])] at h
      simp [UseSkillGo, resetCooldownFirst, ha, ih h]

/-- The CanUseSkill loop returns false when every skill whose id matches
is still on cooldown. -/
theorem canUseSkillAux_of_cooldown (cm : ℚ) (skillId : ℤ) (l : List Skill)
    (h : ∀ sk ∈ l, sk.skillId = skillId → 0 < sk.cooldownRemaining) :
    CanUseSkillAux cm skillId l = false := by
  induction l with
  | nil => rfl
  | cons a rest ih =>
    by_cases ha : a.skillId = skillId
    · have h0 := h a (List.mem_cons_self a rest) ha
      simp only [CanUseSkillAux, ha, if_pos]
      simp only [decide_eq_false_iff_not]
      rintro ⟨h1, -⟩
      linarith
    · simp only [CanUseSkillAux, ha, if_neg, ite_false]
      exact ih (fun sk hsk => h sk (List.mem_cons_of_mem a hsk))

/-- C5: UseSkill deducts the skill's mana cost and resets its cooldown
to the cooldown duration exactly when CanUseSkill holds at call time;
when the skill is unknown, on cooldown or unaffordable the state is
returned unchanged in every field, so a second use while on cooldown is
a state-preserving no-op. -/
theorem useSkill_spec (s : SkillSystem) (skillId : ℤ) :
    (s.CanUseSkill skillId = false → s.UseSkill skillId = s)
    ∧ (∀ sk, s.CanUseSkill skillId = true →
        s.skills.find? (fun x => decide (x.skillId = skillId)) = some sk →
        s.UseSkill skillId =
          { skills := resetCooldownFirst skillId s.skills,
            currentMana := s.currentMana - sk.manaCost,
            maxMana := s.maxMana })
    ∧ ((∀ sk ∈ s.skills, sk.skillId = skillId → 0 < sk.cooldownRemaining) →
        s.UseSkill skillId = s) := by
  have h1 : s.CanUseSkill skillId = false → s.UseSkill skillId = s := by
    intro h
    simp [UseSkill, h, useSkillGo_of_false]
  refine ⟨h1, ?_, ?_⟩
  · intro sk h hf
    simp [UseSkill, h, useSkillGo_of_true skillId s.currentMana s.skills sk hf]
  · intro h
    exact h1 (canUseSkillAux_of_cooldown s.currentMana skillId s.skills h)

/-- C5 witness: a usable skill (id 1, cooldown 5, mana cost 20, mana
100) is charged and put on cooldown; the same call on the ledger already
on cooldown, and a call with the unknown id 2, change nothing. -/
theorem useSkill_spec_witness :
    UseSkill
        { skills := [{ skillId := 1, cooldown := 5, cooldownRemaining := 0,
                       manaCost := 20, damage := 0, isActive := true }],
          currentMana := 100, maxMana := 100 } 1
      = { skills := resetCooldownFirst 1
            [{ skillId := 1, cooldown := 5, cooldownRemaining := 0,
               manaCost := 20, damage := 0, isActive := true }],
          currentMana := 100 - 20, maxMana := 100 }
    ∧ UseSkill
        { skills := [{ skillId := 1, cooldown := 5, cooldownRemaining := 5,
                       manaCost := 20, damage := 0, isActive := true }],
          currentMana := 80, maxMana := 100 } 1
      = { skills := [{ skillId := 1, cooldown := 5, cooldownRemaining := 5,
                       manaCost := 20, damage := 0, isActive := true }],
          currentMana := 80, maxMana := 100 }
    ∧ UseSkill
        { skills := [{ skillId := 1, cooldown := 5, cooldownRemaining := 0,
                       manaCost := 20, damage := 0, isActive := true }],
          currentMana := 100, maxMana := 100 } 2
      = { skills := [{ skillId := 1, cooldown := 5, cooldownRemaining := 0,
                       manaCost := 20, damage := 0, isActive := true }],
          currentMana := 100, maxMana := 100 } :=
  ⟨(useSkill_spec
      { skills := [{ skillId := 1, cooldown := 5, cooldownRemaining := 0,
                     manaCost := 20, damage := 0, isActive := true }],
        currentMana := 100, maxMana := 100 } 1).2.1
      { skillId := 1, cooldown := 5, cooldownRemaining := 0,
        manaCost := 20, damage := 0, isActive := true } rfl rfl,
   (useSkill_spec
      { skills := [{ skillId := 1, cooldown := 5, cooldownRemaining := 5,
                     manaCost := 20, damage := 0, isActive := true }],
        currentMana := 80, maxMana := 100 } 1).1 rfl,
   (useSkill_spec
      { skills := [{ skillId := 1, cooldown := 5, cooldownRemaining := 0,
                     manaCost := 20, damage := 0, isActive := true }],
        currentMana := 100, maxMana := 100 } 2).2.2 (by decide)⟩

/-- C6: on a state satisfying the cooldown and mana invariants, and for
non-negative deltaTime and regeneration rate, UpdateCooldowns clamps
each cooldown at max(0, remaining − deltaTime) and RegenerateMana clamps
mana at min(maxMana, mana + rate × deltaTime), and both clamps preserve
the invariants, so no sequence of such calls drives a cooldown below 0
or mana above maxMana. -/
theorem tick_clamp_spec (s : SkillSystem) (dt rate : ℚ)
    (hdt : 0 ≤ dt) (hrate : 0 ≤ rate)
    (hcd : ∀ sk ∈ s.skills,
      0 ≤ sk.cooldownRemaining ∧ sk.cooldownRemaining ≤ sk.cooldown)
    (hm0 : 0 ≤ s.currentMana) (hm1 : s.currentMana ≤ s.maxMana) :
    (s.UpdateCooldowns dt).skills = s.skills.map
        (fun sk => { sk with
          cooldownRemaining := max 0 (sk.cooldownRemaining - dt) })
    ∧ (s.RegenerateMana rate dt).currentMana
        = min s.maxMana (s.currentMana + rate * dt)
    ∧ (∀ sk ∈ (s.UpdateCooldowns dt).skills,
        0 ≤ sk.cooldownRemaining ∧ sk.cooldownRemaining ≤ sk.cooldown)
    ∧ 0 ≤ (s.RegenerateMana rate dt).currentMana
    ∧ (s.RegenerateMana rate dt).currentMana
        ≤ (s.RegenerateMana rate dt).maxMana := by
  refine ⟨rfl, rfl, ?_, ?_, ?_⟩
  · intro sk hsk
    rw [UpdateCooldowns] at hsk
    simp only [List.mem_map] at hsk
    obtain ⟨a, ha, rfl⟩ := hsk
    obtain ⟨ha0, ha1⟩ := hcd a ha
    constructor
    · exact le_max_left _ _
    · exact max_le (le_trans ha0 ha1) (by simpa [tickCooldown] using by linarith)
  · exact le_min (le_trans hm0 hm1) (by positivity)
  · exact min_le_left _ _

/-- C6 witness: one skill at cooldown 3 of 5, mana 50 of 100, deltaTime
1, rate 2: the clamps and both invariants hold after the tick. -/
theorem tick_clamp_spec_witness :
    (UpdateCooldowns
        { skills := [{ skillId := 1, cooldown := 5, cooldownRemaining := 3,
                       manaCost := 20, damage := 0, isActive := true }],
          currentMana := 50, maxMana := 100 } 1).skills
      = List.map
          (fun sk : Skill => { sk with
            cooldownRemaining := max 0 (sk.cooldownRemaining - 1) })
          [{ skillId := 1, cooldown := 5, cooldownRemaining := 3,
             manaCost := 20, damage := 0, isActive := true }]
    ∧ (RegenerateMana
        { skills := [{ skillId := 1, cooldown := 5, cooldownRemaining := 3,
                       manaCost := 20, damage := 0, isActive := true }],
          currentMana := 50, maxMana := 100 } 2 1).currentMana
      = min 100 (50 + 2 * 1)
    ∧ (∀ sk ∈ (UpdateCooldowns
        { skills := [{ skillId := 1, cooldown := 5, cooldownRemaining := 3,
                       manaCost := 20, damage := 0, isActive := true }],
          currentMana := 50, maxMana := 100 } 1).skills,
        0 ≤ sk.cooldownRemaining ∧ sk.cooldownRemaining ≤ sk.cooldown)
    ∧ 0 ≤ (RegenerateMana
        { skills := [{ skillId := 1, cooldown := 5, cooldownRemaining := 3,
                       manaCost := 20, damage := 0, isActive := true }],
          currentMana := 50, maxMana := 100 } 2 1).currentMana
    ∧ (RegenerateMana
        { skills := [{ skillId := 1, cooldown := 5, cooldownRemaining := 3,
                       manaCost := 20, damage := 0, isActive := true }],
          currentMana := 50, maxMana := 100 } 2 1).currentMana
      ≤ (RegenerateMana
        { skills := [{ skillId := 1, cooldown := 5, cooldownRemaining := 3,
                       manaCost := 20, damage := 0, isActive := true }],
          currentMana := 50, maxMana := 100 } 2 1).maxMana :=
  tick_clamp_spec
    { skills := [{ skillId := 1, cooldown := 5, cooldownRemaining := 3,
                   manaCost := 20, damage := 0, isActive := true }],
      currentMana := 50, maxMana := 100 } 1 2
    (by norm_num) (by norm_num) (by decide) (by norm_num) (by norm_num)

/-- On a ledger with pairwise-distinct skill ids and non-negative
cooldowns, the CanUseSkill loop succeeds exactly when the ledger holds a
skill with the requested id, an elapsed cooldown and an affordable mana
cost. -/
theorem canUseSkillAux_iff (cm : ℚ) (skillId : ℤ) (l : List Skill)
    (hu : l.Pairwise (fun a b => a.skillId ≠ b.skillId))
    (hcr : ∀ sk ∈ l, 0 ≤ sk.cooldownRemaining) :
    (CanUseSkillAux cm skillId l = true ↔
      ∃ sk ∈ l, sk.skillId = skillId ∧ sk.cooldownRemaining = 0
        ∧ sk.manaCost ≤ cm) := by
  induction l with
  | nil => simp [CanUseSkillAux]
  | cons a rest ih =>
    rw [List.pairwise_cons] at hu
    by_cases ha : a.skillId = skillId
    · have ha0 := hcr a (List.mem_cons_self a rest)
      simp only [CanUseSkillAux, ha, if_pos, decide_eq_true_eq]
      constructor
      · rintro ⟨h1, h2⟩
        exact ⟨a, List.mem_cons_self a rest, ha, le_antisymm h1 ha0, h2⟩
      · rintro ⟨sk, hsk, hid, hc, hm⟩
        rcases List.mem_cons.mp hsk with rfl | hsk
        · exact ⟨le_of_eq hc, hm⟩
        · exact absurd (ha.trans hid.symm) (hu.1 sk hsk)
    · simp only [CanUseSkillAux, ha, ite_false]
      rw [ih hu.2 (fun sk hsk => hcr sk (List.mem_cons_of_mem a hsk))]
      constructor
      · rintro ⟨sk, hsk, hrest⟩
        exact ⟨sk, List.mem_cons_of_mem a hsk, hrest⟩
      · rintro ⟨sk, hsk, hid, hrest⟩
        rcases List.mem_cons.mp hsk with rfl | hsk
        · exact absurd hid ha
        · exact ⟨sk, hsk, hid, hrest⟩

/-- C8: on a ledger with unique skill ids and non-negative cooldowns,
CanUseSkill returns true exactly when the ledger contains a skill with
the requested id whose cooldown has elapsed to 0 and whose mana cost is
at most the current mana; it returns false (no error, and it is a pure
query modifying nothing) for every id not present in the ledger, so an
absent skill is indistinguishable from an unusable one. -/
theorem canUseSkill_spec (s : SkillSystem) (skillId : ℤ)
    (hu : s.skills.Pairwise (fun a b => a.skillId ≠ b.skillId))
    (hcr : ∀ sk ∈ s.skills, 0 ≤ sk.cooldownRemaining) :
    (s.CanUseSkill skillId = true ↔
      ∃ sk ∈ s.skills, sk.skillId = skillId ∧ sk.cooldownRemaining = 0
        ∧ sk.manaCost ≤ s.currentMana)
    ∧ ((∀ sk ∈ s.skills, sk.skillId ≠ skillId) →
        s.CanUseSkill skillId = false) := by
  have hiff := canUseSkillAux_iff s.currentMana skillId s.skills hu hcr
  refine ⟨hiff, ?_⟩
  intro habs
  rw [← Bool.not_eq_true, CanUseSkill, hiff]
  rintro ⟨sk, hsk, hid, -⟩
  exact habs sk hsk hid

/-- C8 witness: on a one-skill ledger (id 1, cooldown elapsed, cost 20,
mana 100) the characterisation holds for id 1, and the unknown id 2
yields false. -/
theorem canUseSkill_spec_witness :
    (CanUseSkill
        { skills := [{ skillId := 1, cooldown := 5, cooldownRemaining := 0,
                       manaCost := 20, damage := 0, isActive := true }],
          currentMana := 100, maxMana := 100 } 1 = true ↔
      ∃ sk ∈ [{ skillId := 1, cooldown := 5, cooldownRemaining := 0,
                manaCost := 20, damage := 0, isActive := true : Skill }],
        sk.skillId = 1 ∧ sk.cooldownRemaining = 0 ∧ sk.manaCost ≤ 100)
    ∧ CanUseSkill
        { skills := [{ skillId := 1, cooldown := 5, cooldownRemaining := 0,
                       manaCost := 20, damage := 0, isActive := true }],
          currentMana := 100, maxMana := 100 } 2 = false := by
  have h1 := canUseSkill_spec
    { skills := [{ skillId := 1, cooldown := 5, cooldownRemaining := 0,
                   manaCost := 20, damage := 0, isActive := true }],
      currentMana := 100, maxMana := 100 } 1
    (by simp) (by decide)
  have h2 := canUseSkill_spec
    { skills := [{ skillId := 1, cooldown := 5, cooldownRemaining := 0,
                   manaCost := 20, damage := 0, isActive := true }],
      currentMana := 100, maxMana := 100 } 2
    (by simp) (by decide)
  exact ⟨h1.1, h2.2 (by decide)⟩

/-- C10: every reachable EnemyAIBehavior state keeps the constructor
values detectionRange 15 and attackRange 3 (no operation assigns to
either field), so attackRange ≤ detectionRange holds in every reachable
state, and when an enemy is alive, not stunned and the target is inside
attack range with line of sight, DecideAction returns ATTACK, never
CHASE. -/
theorem ranges_invariant (e : EnemyAIBehavior) (h : e.Reachable) :
    e.detectionRange = 15 ∧ e.attackRange = 3
    ∧ e.attackRange ≤ e.detectionRange
    ∧ (∀ d ph : ℚ, 0 < e.currentHealth →
        ¬ e.currentHealth < 0.2 * e.maxHealth →
        d < e.attackRange → e.DecideAction d ph true = .ATTACK) := by
  have hfix : e.detectionRange = 15 ∧ e.attackRange = 3 := by
    induction h with
    | construct maxHp => exact ⟨rfl, rfl⟩
    | takeDamage a _ ih => exact ih
    | heal a _ ih => exact ih
  refine ⟨hfix.1, hfix.2, by rw [hfix.1, hfix.2]; norm_num, ?_⟩
  intro d ph h1 h2 h3
  rw [mul_comm] at h2
  rw [EnemyAIBehavior.DecideAction, if_neg (not_le.mpr h1), if_neg h2,
    if_pos ⟨h3, rfl⟩]

/-- C10 witness: the freshly constructed enemy with maxHealth 100 has
attackRange within detectionRange and attacks a visible target at
distance 2. -/
theorem ranges_invariant_witness :
    (EnemyAIBehavior.construct 100).attackRange
        ≤ (EnemyAIBehavior.construct 100).detectionRange
    ∧ (EnemyAIBehavior.construct 100).DecideAction 2 50 true = .ATTACK := by
  have h := ranges_invariant (EnemyAIBehavior.construct 100) (.construct 100)
  exact ⟨h.2.2.1, h.2.2.2 2 50 (by norm_num [EnemyAIBehavior.construct])
    (by norm_num [EnemyAIBehavior.construct])
    (by norm_num [EnemyAIBehavior.construct])⟩

end AdvancedSystems
